import Mathlib

/-!
# jira-slack-nudge: a shallow embedding of the tracker client, the chat client and the entry point

Sources embedded here:

* `pkg/jira/jira.go`  : `Issue`, `Issue.Assignee`, `SearchResponse`, `Client.FindIssues`,
  `Client.LinkForIssue`
* `pkg/slack/slack.go`: `Text`, `Block`, `Message`, `Client.PostMessage`
* `examples/nudge/main.go`: `fromEnv`, `main`

Go strings are byte sequences, so they are modelled as lists of bytes.  Calls into the Go
standard library that do real I/O (the network round trip, reading a file, the process
environment) or whose result is not inspected by the claims (the JSON and YAML codecs, the URL
syntax check of `url.Parse`) are parameters of the model, collected in a `World` record.  The
parts of the standard library the properties below depend on (`url.QueryEscape`,
`url.QueryUnescape`, `url.Values.Encode`, `url.ParseQuery`, `Request.SetBasicAuth`, the base64
standard encoding) are written out.
-/

set_option autoImplicit false
set_option linter.dupNamespace false

/-! ## Go strings -/

/-- One byte of a Go string. -/
abbrev Byte := Fin 256

/-- A Go `string`: an immutable sequence of bytes. -/
abbrev GoString := List Byte

/-- An ASCII string literal of the source, as a Go string. -/
def str (s : String) : GoString := s.toList.map (fun c => Fin.ofNat c.toNat)

/-! ## Errors and contexts -/

/-- A Go `error` value.  `lib` is an error handed back by a library call (the text is the
library's); `unexpectedStatus` is the value built by
`fmt.Errorf("got unexpected status %d %s from <system>", code, http.StatusText(code))`;
`canceled` and `deadlineExceeded` are `context.Canceled` and `context.DeadlineExceeded`. -/
inductive Error where
  | lib (msg : GoString)
  | unexpectedStatus (system : GoString) (code : Int)
  | canceled
  | deadlineExceeded
  deriving DecidableEq, Repr

/-- A `context.Context`, observed at the instant of the call: the background context, a context
derived with `context.WithCancel` (with whether its cancel function has been called) and a
context derived with `context.WithTimeout` (with its duration in nanoseconds). -/
inductive Context where
  | Background
  | WithCancel (parent : Context) (cancelCalled : Bool)
  | WithTimeout (parent : Context) (timeout : Int)
  deriving DecidableEq, Repr

/-- Model of `ctx.Err()` at the instant of the call: a derived context is done as soon as its parent is;
a cancel context is done once canceled; a timeout context created just now is done only if its
duration is not positive. -/
def Context.Err : Context → Option Error
  | .Background => none
  | .WithCancel parent cancelCalled =>
    match parent.Err with
    | some e => some e
    | none => if cancelCalled then some Error.canceled else none
  | .WithTimeout parent timeout =>
    match parent.Err with
    | some e => some e
    | none => if timeout ≤ 0 then some Error.deadlineExceeded else none

/-- Model of `time.Second`, in nanoseconds. -/
def Second : Int := 1000000000

/-! ## strings -/

namespace strings

/-- Model of `strings.Cut(s, sep)` for a one-byte separator: the text before the first separator, and
the text after it when the separator is found (`none` is Go's `found = false`, where `before`
is the whole text). -/
def Cut (sep : Byte) : GoString → GoString × Option GoString
  | [] => ([], none)
  | c :: s =>
    if c = sep then ([], some s)
    else ((c :: (Cut sep s).1), (Cut sep s).2)

end strings

/-! ## net/url -/

namespace url

/-- The `upperhex` table of `net/url`. -/
def upperhex : GoString := str "0123456789ABCDEF"

/-- Model of `shouldEscape(c, encodeQueryComponent)`: letters, digits and `-_.~` are kept, everything
else (the reserved characters included) is escaped. -/
def shouldEscape (c : Byte) : Bool :=
  if (97 ≤ c.val && c.val ≤ 122) || (65 ≤ c.val && c.val ≤ 90) || (48 ≤ c.val && c.val ≤ 57) then
    false
  else if c.val = 45 || c.val = 95 || c.val = 46 || c.val = 126 then
    false
  else
    true

/-- Model of `QueryEscape`: a space becomes `+`, a byte to escape becomes `%XX` in upper-case hex, any
other byte is copied. -/
def QueryEscape : GoString → GoString
  | [] => []
  | c :: s =>
    if c.val = 32 then
      (43 : Byte) :: QueryEscape s
    else if shouldEscape c then
      (37 : Byte) :: upperhex.getD (c.val / 16) 0 :: upperhex.getD (c.val % 16) 0 :: QueryEscape s
    else
      c :: QueryEscape s

/-- Model of `ishex` of `net/url`. -/
def ishex (c : Byte) : Bool :=
  (48 ≤ c.val && c.val ≤ 57) || (97 ≤ c.val && c.val ≤ 102) || (65 ≤ c.val && c.val ≤ 70)

/-- Model of `unhex` of `net/url`. -/
def unhex (c : Byte) : Nat :=
  if 48 ≤ c.val && c.val ≤ 57 then c.val - 48
  else if 97 ≤ c.val && c.val ≤ 102 then c.val - 97 + 10
  else if 65 ≤ c.val && c.val ≤ 70 then c.val - 65 + 10
  else 0

/-- Model of `QueryUnescape`: `%XX` becomes the byte `XX`, `+` becomes a space; a `%` that is not followed
by two hex digits is an `EscapeError` carrying the offending (at most three) bytes. -/
def QueryUnescape : GoString → Except Error GoString
  | [] => .ok []
  | c :: s =>
    if c.val = 37 then
      match s with
      | h :: l :: rest =>
        if ishex h && ishex l then
          match QueryUnescape rest with
          | .ok t => .ok (Fin.ofNat (unhex h * 16 + unhex l) :: t)
          | .error e => .error e
        else .error (Error.lib (c :: h :: [l]))
      | _ => .error (Error.lib (c :: s))
    else if c.val = 43 then
      match QueryUnescape s with
      | .ok t => .ok ((32 : Byte) :: t)
      | .error e => .error e
    else
      match QueryUnescape s with
      | .ok t => .ok (c :: t)
      | .error e => .error e

/-- Model of `url.Values`: a map from key to the list of its values, kept as an association list with
one entry per key. -/
abbrev Values := List (GoString × List GoString)

/-- Model of `Values.Get`-style lookup of all values of a key (`v[key]`, nil when absent). -/
def Values.lookup (v : Values) (key : GoString) : List GoString :=
  match v with
  | [] => []
  | (k, vs) :: rest => if k = key then vs else Values.lookup rest key

/-- Model of `Values.Set`: replaces whatever the key held by the single value. -/
def Values.Set (v : Values) (key value : GoString) : Values :=
  match v with
  | [] => [(key, [value])]
  | (k, vs) :: rest => if k = key then (k, [value]) :: rest else (k, vs) :: Values.Set rest key value

/-- Model of `Values.Add`-style append (`m[key] = append(m[key], value)`), as `ParseQuery` does it. -/
def Values.append (v : Values) (key value : GoString) : Values :=
  match v with
  | [] => [(key, [value])]
  | (k, vs) :: rest =>
    if k = key then (k, vs ++ [value]) :: rest else (k, vs) :: Values.append rest key value

/-- Byte-wise lexicographic `a < b` on Go strings. -/
def strLt : GoString → GoString → Bool
  | _, [] => false
  | [], _ :: _ => true
  | a :: s, b :: t => if a.val < b.val then true else if b.val < a.val then false else strLt s t

/-- Insertion of a key into a sorted list of keys. -/
def insertKey (k : GoString) : List GoString → List GoString
  | [] => [k]
  | x :: xs => if strLt x k then x :: insertKey k xs else k :: x :: xs

/-- Model of `slices.Sort(keys)`. -/
def sortKeys : List GoString → List GoString
  | [] => []
  | k :: ks => insertKey k (sortKeys ks)

/-- The pairs `key=value` written by `Encode` for one key, each escaped. -/
def encodeKey (keyEscaped : GoString) : List GoString → List GoString
  | [] => []
  | value :: vs => (keyEscaped ++ (61 : Byte) :: QueryEscape value) :: encodeKey keyEscaped vs

/-- Joins the pairs with `&`, as the `buf.Len() > 0` test of `Encode` does. -/
def joinAmp : List GoString → GoString
  | [] => []
  | [p] => p
  | p :: q :: ps => p ++ (38 : Byte) :: joinAmp (q :: ps)

/-- Model of `Values.Encode`: the keys are sorted, and for every key and each of its values
`QueryEscape(key)=QueryEscape(value)` is written, the pairs separated by `&`. -/
def Values.Encode (v : Values) : GoString :=
  joinAmp ((sortKeys (v.map Prod.fst)).flatMap (fun k => encodeKey (QueryEscape k) (Values.lookup v k)))

/-- Model of `ParseQuery` on the list of `&`-separated settings: a setting holding `;` or failing to
unescape is skipped and the first such error kept; an empty setting is skipped; otherwise the
value is appended to the key. -/
def parseSettings (m : Values) (err : Option Error) : List GoString → Values × Option Error
  | [] => (m, err)
  | key :: rest =>
    if (59 : Byte) ∈ key then
      parseSettings m (some (Error.lib (str "invalid semicolon separator in query"))) rest
    else if key = [] then
      parseSettings m err rest
    else
      match QueryUnescape (strings.Cut 61 key).1 with
      | .error e1 => parseSettings m (if err.isNone then some e1 else err) rest
      | .ok k =>
        match QueryUnescape ((strings.Cut 61 key).2.getD []) with
        | .error e1 => parseSettings m (if err.isNone then some e1 else err) rest
        | .ok value => parseSettings (Values.append m k value) err rest

/-- The successive `strings.Cut(query, "&")` of `ParseQuery`: the settings of a query string. -/
def settings : GoString → List GoString
  | [] => []
  | c :: s =>
    if c.val = 38 then [] :: settings s
    else
      match settings s with
      | [] => [[c]]
      | p :: ps => (c :: p) :: ps

/-- Model of `ParseQuery`. -/
def ParseQuery (query : GoString) : Values × Option Error :=
  parseSettings [] none (settings query)

/-- The fields of `url.URL` that `url.Parse` fills in. -/
structure URL where
  Scheme : GoString
  Host : GoString
  Path : GoString
  RawQuery : GoString
  Fragment : GoString
  deriving DecidableEq, Repr

end url

/-! ## encoding/base64 -/

namespace base64

/-- The alphabet of `base64.StdEncoding`. -/
def encodeStd : GoString :=
  str "ABCDEFGHIJKLMNOPQRSTUVWXYZabcdefghijklmnopqrstuvwxyz0123456789+/"

/-- The character of a six-bit value. -/
def enc (n : Nat) : Byte := encodeStd.getD n 0

/-- Model of `StdEncoding.EncodeToString`: three bytes become four characters; a remainder of one or two
bytes is padded with `=`. -/
def EncodeToString : GoString → GoString
  | [] => []
  | [a] => [enc (a.val / 4), enc (a.val % 4 * 16), 61, 61]
  | [a, b] => [enc (a.val / 4), enc (a.val % 4 * 16 + b.val / 16), enc (b.val % 16 * 4), 61]
  | a :: b :: c :: rest =>
    enc (a.val / 4) :: enc (a.val % 4 * 16 + b.val / 16) :: enc (b.val % 16 * 4 + c.val / 64)
      :: enc (c.val % 64) :: EncodeToString rest

/-- The six-bit value of a character of the alphabet (the decode map of `StdEncoding`). -/
def dec (c : Byte) : Option Nat :=
  if encodeStd.indexOf c < 64 then some (encodeStd.indexOf c) else none

/-- Model of `StdEncoding.DecodeString` on text without line breaks: four characters become three
bytes; the last group may end in one or two `=`. -/
def DecodeString : GoString → Option GoString
  | [] => some []
  | a :: b :: c :: d :: rest =>
    match dec a, dec b with
    | some x, some y =>
      if c.val = 61 ∧ d.val = 61 ∧ rest = [] then
        some [Fin.ofNat (x * 4 + y / 16)]
      else
        match dec c with
        | none => none
        | some z =>
          if d.val = 61 ∧ rest = [] then
            some [Fin.ofNat (x * 4 + y / 16), Fin.ofNat (y % 16 * 16 + z / 4)]
          else
            match dec d, DecodeString rest with
            | some t, some out =>
              some (Fin.ofNat (x * 4 + y / 16) :: Fin.ofNat (y % 16 * 16 + z / 4)
                :: Fin.ofNat (z % 4 * 64 + t) :: out)
            | _, _ => none
    | _, _ => none
  | _ => none
end base64

/-! ## net/http -/

namespace http

/-- Model of `http.MethodGet`. -/
def MethodGet : GoString := str "GET"

/-- Model of `http.MethodPost`. -/
def MethodPost : GoString := str "POST"

/-- Model of `http.StatusOK`. -/
def StatusOK : Int := 200

/-- A request header: canonical key to values. -/
abbrev Header := List (GoString × List GoString)

/-- Model of `Header.Set`. -/
def Header.Set (h : Header) (key value : GoString) : Header := url.Values.Set h key value

/-- Model of `Header.Add`. -/
def Header.Add (h : Header) (key value : GoString) : Header := url.Values.append h key value

/-- Model of `Header.Get`-style lookup of the values of a key. -/
def Header.Values (h : Header) (key : GoString) : List GoString := url.Values.lookup h key

/-- The parts of `http.Request` the clients set: method, URL, header, body and context. -/
structure Request where
  Method : GoString
  URL : url.URL
  Header : Header
  Body : Option GoString
  ctx : Context
  deriving DecidableEq, Repr

/-- What `ioutil.ReadAll(resp.Body)` gives: the bytes read and the read error, if any. -/
structure Body where
  data : GoString
  err : Option Error
  deriving DecidableEq, Repr

/-- The parts of `http.Response` the clients read. -/
structure Response where
  StatusCode : Int
  Body : Body
  deriving DecidableEq, Repr

/-- Model of `http.NewRequestWithContext(ctx, method, url, body)` for a valid method and a non-nil
context: it fails exactly when `url.Parse` (the parameter `Parse`) rejects the URL. -/
def NewRequestWithContext (Parse : GoString → Except Error url.URL) (ctx : Context)
    (method : GoString) (u : GoString) (body : Option GoString) : Except Error Request :=
  match Parse u with
  | .error e => .error e
  | .ok parsed => .ok { Method := method, URL := parsed, Header := [], Body := body, ctx := ctx }

/-- Model of `basicAuth(username, password)` of `net/http`. -/
def basicAuth (username password : GoString) : GoString :=
  base64.EncodeToString (username ++ str ":" ++ password)

/-- Model of `Request.SetBasicAuth`. -/
def Request.SetBasicAuth (r : Request) (username password : GoString) : Request :=
  let header := Header.Set r.Header (str "Authorization")
    (str "Basic " ++ basicAuth username password)
  ⟨r.Method, r.URL, header, r.Body, r.ctx⟩

/-- Model of `http.DefaultClient.Do(req)`: when the request's context is already done the transport
returns the context's error and nothing is sent; otherwise the request goes to the network
(the parameter `RoundTrip`).  The first component lists the requests put on the wire. -/
def Do (RoundTrip : Request → Except Error Response) (req : Request) :
    List Request × Except Error Response :=
  match req.ctx.Err with
  | some e => ([], .error e)
  | none => ([req], RoundTrip req)

end http

/-- What a call leaves behind besides its return value: the requests put on the wire and the
lines written with `log.Printf`. -/
structure Effects where
  sent : List http.Request
  logged : List GoString
  deriving DecidableEq, Repr

/-! ## pkg/jira -/

namespace jira

/-- Client is a wrapper around the JIRA API. -/
structure Client where
  server : GoString
  username : GoString
  password : GoString
  deriving DecidableEq, Repr

/-- New creates a new JIRA client. -/
def New (server username password : GoString) : Client := ⟨server, username, password⟩

/-- The anonymous struct of the `assignee` field. -/
structure AssigneeField where
  DisplayName : GoString
  deriving DecidableEq, Repr

/-- The anonymous struct of the `Status` field. -/
structure StatusField where
  Name : GoString
  deriving DecidableEq, Repr

/-- The anonymous struct of the `fields` field. -/
structure Fields where
  Summary : GoString
  Assignee : AssigneeField
  Status : StatusField
  deriving DecidableEq, Repr

/-- Issue is a JIRA issue. -/
structure Issue where
  Key : GoString
  Fields : Fields
  deriving DecidableEq, Repr

/-- The zero value `Issue{}`: what the decoder leaves of every field absent from the JSON. -/
def Issue.zero : Issue := ⟨[], ⟨[], ⟨[]⟩, ⟨[]⟩⟩⟩

/-- Assignee returns the name of the assignee or 'Unassigned'. -/
def Issue.Assignee (i : Issue) : GoString :=
  if i.Fields.Assignee.DisplayName ≠ [] then
    i.Fields.Assignee.DisplayName
  else
    str "Unassigned"

/-- SearchResponse from JIRA. -/
structure SearchResponse where
  Issues : List Issue
  MaxResults : Int
  Total : Int
  deriving DecidableEq, Repr

/-- The library calls of `FindIssues` that are parameters of the model: `url.Parse` (inside
`http.NewRequestWithContext`), the network behind `http.DefaultClient`, and `json.Unmarshal`
of the body into a fresh `SearchResponse`. -/
structure World where
  Parse : GoString → Except Error url.URL
  RoundTrip : http.Request → Except Error http.Response
  Unmarshal : GoString → Except Error SearchResponse

/-- Lines 58 to 76 of `FindIssues`: the request that is built.  The context of the request is
derived from `context.Background()`; the parameter `ctx` is shadowed by it. -/
def Client.buildRequest (c : Client) (Parse : GoString → Except Error url.URL) (_ctx : Context)
    (jql : GoString) : Except Error http.Request :=
  let ctx := Context.WithTimeout Context.Background (10 * Second)
  match http.NewRequestWithContext Parse ctx http.MethodGet
      (str "https://" ++ c.server ++ str "/rest/api/2/" ++ str "search") none with
  | .error err => .error err
  | .ok req =>
    let query : url.Values := []
    let query := url.Values.Set query (str "jql") jql
    let query := url.Values.Set query (str "fields") (str "key,summary,status,assignee")
    let req := { req with URL := { req.URL with RawQuery := url.Values.Encode query } }
    .ok (req.SetBasicAuth c.username c.password)

/-- FindIssues finds JIRA issues matching a given JQL.  The Go pair `(*SearchResponse, error)`
is a pair of options. -/
def Client.FindIssues (c : Client) (w : World) (ctx : Context) (jql : GoString) :
    Effects × (Option SearchResponse × Option Error) :=
  match c.buildRequest w.Parse ctx jql with
  | .error err => (⟨[], []⟩, (none, some err))
  | .ok req =>
    match http.Do w.RoundTrip req with
    | (sent, .error err) => (⟨sent, []⟩, (none, some err))
    | (sent, .ok resp) =>
      match resp.Body.err with
      | some err => (⟨sent, []⟩, (none, some err))
      | none =>
        let body := resp.Body.data
        if resp.StatusCode ≠ http.StatusOK then
          (⟨sent, [str "Non-200 response body: " ++ body]⟩,
            (none, some (Error.unexpectedStatus (str "JIRA") resp.StatusCode)))
        else
          match w.Unmarshal body with
          | .error err => (⟨sent, []⟩, (none, some err))
          | .ok searchResp => (⟨sent, []⟩, (some searchResp, none))

/-- LinkForIssue returns a link to the given issue. -/
def Client.LinkForIssue (c : Client) (i : Issue) : GoString :=
  str "https://" ++ c.server ++ str "/issues/" ++ i.Key

end jira

/-! ## pkg/slack -/

namespace slack

/-- BlockTypeSection is a section block which contains more content. -/
def BlockTypeSection : GoString := str "section"

/-- BlockTypeDivider is a horizontal divider. -/
def BlockTypeDivider : GoString := str "divider"

/-- BlockTextTypeMarkdown is the type for markdown formatted text. -/
def BlockTextTypeMarkdown : GoString := str "mrkdwn"

/-- Text is some structured text.  (The Go field `Type` is written `Type_`.) -/
structure Text where
  Type_ : GoString
  Text : GoString
  deriving DecidableEq, Repr

/-- Block represents block in Slack's Block Kit. -/
structure Block where
  Type_ : GoString
  Text : Option Text
  deriving DecidableEq, Repr

/-- Message is a Slack message. -/
structure Message where
  Blocks : List Block
  deriving DecidableEq, Repr

/-- Client is a wrapper around the Slack API. -/
structure Client where
  webhookURL : GoString
  deriving DecidableEq, Repr

/-- New constructs a new slack.Client. -/
def New (webhookURL : GoString) : Client := ⟨webhookURL⟩

/-- The library calls of `PostMessage` that are parameters of the model: `json.Marshal` of the
message, `url.Parse` (inside `http.NewRequestWithContext`) and the network behind
`http.DefaultClient`. -/
structure World where
  Marshal : Message → Except Error GoString
  Parse : GoString → Except Error url.URL
  RoundTrip : http.Request → Except Error http.Response

/-- How a call of `PostMessage` ends: it returns its `error` result (nil or not), or it
panics with a value. -/
inductive Outcome where
  | returned (err : Option Error)
  | panicked (v : Error)
  deriving DecidableEq, Repr

/-- Lines 54 to 66 of `PostMessage`: the request that is built.  The context of the request
is derived from `context.Background()`; the parameter `ctx` is shadowed by it. -/
def Client.buildRequest (c : Client) (w : World) (_ctx : Context) (msg : Message) :
    Except Error http.Request :=
  let ctx := Context.WithTimeout Context.Background (10 * Second)
  match w.Marshal msg with
  | .error err => .error err
  | .ok encodedMsg =>
    match http.NewRequestWithContext w.Parse ctx http.MethodPost c.webhookURL
        (some encodedMsg) with
    | .error err => .error err
    | .ok req =>
      let header := http.Header.Add req.Header (str "Content-Type") (str "application/json")
      .ok { req with Header := header }

/-- PostMessage posts a message to the client's webhook URL. -/
def Client.PostMessage (c : Client) (w : World) (ctx : Context) (msg : Message) :
    Effects × Outcome :=
  match c.buildRequest w ctx msg with
  | .error err => (⟨[], []⟩, .returned (some err))
  | .ok req =>
    match http.Do w.RoundTrip req with
    | (sent, .error err) => (⟨sent, []⟩, .returned (some err))
    | (sent, .ok resp) =>
      if resp.StatusCode ≠ http.StatusOK then
        match resp.Body.err with
        | some err => (⟨sent, []⟩, .panicked err)
        | none =>
          (⟨sent, [str "Non-200 response body: " ++ resp.Body.data]⟩,
            .returned (some (Error.unexpectedStatus (str "Slack") resp.StatusCode)))
      else
        (⟨sent, []⟩, .returned none)

end slack

/-! ## examples/nudge/main.go -/

namespace nudge

/-- Why the process was ended by `log.Fatal`/`log.Fatalf` (exit status 1): the usage line, the
error of `ioutil.ReadFile`, an unset environment variable, or the error returned by `Run`. -/
inductive Fatal where
  | usage
  | readFile (err : Error)
  | envNotSet (k : GoString)
  | runError (err : Error)
  deriving DecidableEq, Repr

/-- One invocation `nudge.New(server, username, password, url).Run(ctx, &cfg)`. -/
structure RunCall (Config : Type) where
  server : GoString
  username : GoString
  password : GoString
  configURL : GoString
  ctx : Context
  cfg : Config

/-- What `main` works with and does not define: the command line, the file system, the process
environment, `yaml.Unmarshal` into the zero value `nudge.Config{}` (giving the configuration
it leaves behind and its error), and the engine's `Run` (the package `nudge` itself). -/
structure World (Config : Type) where
  Args : List GoString
  ReadFile : GoString → Except Error GoString
  LookupEnv : GoString → Option GoString
  zeroConfig : Config
  Unmarshal : GoString → Config → Config × Option Error
  Run : RunCall Config → Option Error

/-- How a run of `main` ends: the invocations of `Run` it made, and the fatal exit if any
(`none` is the normal return). -/
structure Result (Config : Type) where
  runs : List (RunCall Config)
  fatal : Option Fatal

/-- The function `fromEnv`: the value of the variable, or a fatal exit when it is not set. -/
def fromEnv {Config : Type} (w : World Config) (k : GoString) : Except Fatal GoString :=
  match w.LookupEnv k with
  | none => .error (Fatal.envNotSet k)
  | some v => .ok v

/-- The function `main`. -/
def main {Config : Type} (w : World Config) : Result Config :=
  if w.Args.length < 2 then
    ⟨[], some Fatal.usage⟩
  else
    let filename := w.Args.getD 1 []
    match w.ReadFile filename with
    | .error err => ⟨[], some (Fatal.readFile err)⟩
    | .ok rawCfg =>
      let cfg := w.zeroConfig
      -- `err = yaml.Unmarshal(rawCfg, &cfg)`: the error is assigned and not read again
      let (cfg, _err) := w.Unmarshal rawCfg cfg
      match fromEnv w (str "JIRA_SERVER") with
      | .error f => ⟨[], some f⟩
      | .ok server =>
        match fromEnv w (str "JIRA_USERNAME") with
        | .error f => ⟨[], some f⟩
        | .ok username =>
          match fromEnv w (str "JIRA_PASSWORD") with
          | .error f => ⟨[], some f⟩
          | .ok password =>
            let ctx := Context.Background
            let call : RunCall Config := ⟨server, username, password, str "", ctx, cfg⟩
            match w.Run call with
            | some err => ⟨[call], some (Fatal.runError err)⟩
            | none => ⟨[call], none⟩

end nudge

/-! ## Concrete inputs used by the examples below -/

namespace Example

/-- A tracker client. -/
def jiraClient : jira.Client := jira.New (str "jira.example.com") (str "bot") (str "s3cret")

/-- A chat client. -/
def slackClient : slack.Client := slack.New (str "https://hooks.example.com/services/T0/B0")

/-- An issue owned by Alice. -/
def issueAlice : jira.Issue := ⟨str "X-1", ⟨str "Fix login", ⟨str "Alice"⟩, ⟨str "Open"⟩⟩⟩

/-- An issue nobody owns. -/
def issueNobody : jira.Issue := ⟨str "X-2", ⟨str "Update docs", ⟨str ""⟩, ⟨str "Open"⟩⟩⟩

/-- An issue owned by a user whose display name is the literal `Unassigned`. -/
def issueNamedUnassigned : jira.Issue :=
  ⟨str "X-3", ⟨str "Rotate keys", ⟨str "Unassigned"⟩, ⟨str "Open"⟩⟩⟩

/-- A search response holding the two issues of the spec's example. -/
def searchResponse : jira.SearchResponse := ⟨[issueAlice, issueNobody], 50, 2⟩

/-- A crude URL parser for texts of the form `https://host/path`: the host is what stands
between the scheme and the next `/`, the path is the rest. -/
def parseAny (u : GoString) : Except Error url.URL :=
  .ok ⟨str "https", (u.drop 8).takeWhile (fun b => b.val ≠ 47),
    (u.drop 8).dropWhile (fun b => b.val ≠ 47), [], []⟩

/-- A tracker that answers every request with the given status and a readable body which the
decoder turns into `searchResponse`. -/
def jiraAnswering (status : Int) : jira.World where
  Parse := parseAny
  RoundTrip := fun _ => .ok ⟨status, ⟨str "\x7b\x7d", none⟩⟩
  Unmarshal := fun _ => .ok searchResponse

/-- A tracker whose network fails. -/
def jiraUnreachable : jira.World where
  Parse := parseAny
  RoundTrip := fun _ => .error (Error.lib (str "dial tcp: connection refused"))
  Unmarshal := fun _ => .ok searchResponse

/-- A tracker that answers 200 and whose body breaks off while it is read. -/
def jiraUnreadableBody : jira.World where
  Parse := parseAny
  RoundTrip := fun _ => .ok ⟨200, ⟨str "\x7b", some (Error.lib (str "unexpected EOF"))⟩⟩
  Unmarshal := fun _ => .ok searchResponse

/-- A tracker that answers 200 with a readable body the decoder rejects. -/
def jiraMalformedBody : jira.World where
  Parse := parseAny
  RoundTrip := fun _ => .ok ⟨200, ⟨str "<html>", none⟩⟩
  Unmarshal := fun _ =>
    .error (Error.lib (str "invalid character '<' looking for beginning of value"))

/-- A chat system that answers every request with the given status and body. -/
def slackAnswering (status : Int) (body : http.Body) : slack.World where
  Marshal := fun _ => .ok (str "\x7b\x7d")
  Parse := parseAny
  RoundTrip := fun _ => .ok ⟨status, body⟩

/-- A message of one divider block. -/
def message : slack.Message := ⟨[⟨slack.BlockTypeDivider, none⟩]⟩

/-- A caller context whose cancel function has already been called. -/
def canceledCtx : Context := Context.WithCancel Context.Background true

/-- A process started with a readable rule-set file whose contents are not valid YAML, all
three environment variables set, and an engine that succeeds.  A configuration is a list of
queries here. -/
def malformedConfigWorld : nudge.World (List GoString) where
  Args := [str "./jira-slack-nudge", str "config.yaml"]
  ReadFile := fun _ => .ok (str "rules: [")
  LookupEnv := fun k =>
    if k = str "JIRA_SERVER" then some (str "jira.example.com")
    else if k = str "JIRA_USERNAME" then some (str "bot")
    else if k = str "JIRA_PASSWORD" then some (str "s3cret")
    else none
  zeroConfig := []
  Unmarshal := fun _ cfg => (cfg, some (Error.lib (str "yaml: line 1: did not find expected node content")))
  Run := fun _ => none

end Example

/-! ## Properties of `Issue.Assignee` and `Client.LinkForIssue` -/

/-- C1: `Assignee` returns the display name when it is non-empty and the literal
`Unassigned` when it is empty; the zero-value issue, which is what an absent assignee field
decodes to, is such an issue. -/
theorem Assignee_displayName_or_Unassigned (i : jira.Issue) :
    (i.Fields.Assignee.DisplayName ≠ [] → i.Assignee = i.Fields.Assignee.DisplayName) ∧
    (i.Fields.Assignee.DisplayName = [] → i.Assignee = str "Unassigned") ∧
    jira.Issue.zero.Assignee = str "Unassigned" := by
  refine ⟨fun h => ?_, fun h => ?_, by decide⟩
  · simp [jira.Issue.Assignee, h]
  · simp [jira.Issue.Assignee, h]

/-- Both branches of `Assignee` on the example issues. -/
theorem Assignee_displayName_or_Unassigned_witness :
    Example.issueAlice.Assignee = str "Alice" ∧
    Example.issueNobody.Assignee = str "Unassigned" :=
  ⟨(Assignee_displayName_or_Unassigned Example.issueAlice).1 (by decide),
   (Assignee_displayName_or_Unassigned Example.issueNobody).2.1 (by decide)⟩

/-- C9: `Assignee` is never empty; it is `Unassigned` exactly when the display name is
empty or is the literal `Unassigned`; and two issues whose display names are outside these two
values have the same `Assignee` only if they have the same display name, which `Assignee`
returns unchanged. -/
theorem Assignee_key_collisions (i j : jira.Issue) :
    i.Assignee ≠ [] ∧
    (i.Assignee = str "Unassigned" ↔
      (i.Fields.Assignee.DisplayName = [] ∨
        i.Fields.Assignee.DisplayName = str "Unassigned")) ∧
    (i.Fields.Assignee.DisplayName ≠ [] → i.Fields.Assignee.DisplayName ≠ str "Unassigned" →
      j.Fields.Assignee.DisplayName ≠ [] → j.Fields.Assignee.DisplayName ≠ str "Unassigned" →
      (i.Assignee = i.Fields.Assignee.DisplayName ∧
        (i.Assignee = j.Assignee → i.Fields.Assignee.DisplayName = j.Fields.Assignee.DisplayName))) := by
  have hU : str "Unassigned" ≠ [] := by decide
  refine ⟨?_, ?_, ?_⟩
  · unfold jira.Issue.Assignee
    split
    · assumption
    · exact hU
  · unfold jira.Issue.Assignee
    by_cases h : i.Fields.Assignee.DisplayName = []
    · simp [h]
    · simp [h]
  · intro hi _ hj _
    have e1 : i.Assignee = i.Fields.Assignee.DisplayName := by simp [jira.Issue.Assignee, hi]
    have e2 : j.Assignee = j.Fields.Assignee.DisplayName := by simp [jira.Issue.Assignee, hj]
    exact ⟨e1, fun h => by rw [e1, e2] at h; exact h⟩

/-- The unowned issue and the issue owned by the user named `Unassigned` get the same
grouping key, and Alice's name is returned unchanged. -/
theorem Assignee_key_collisions_witness :
    Example.issueNobody.Assignee = Example.issueNamedUnassigned.Assignee ∧
    Example.issueAlice.Assignee = str "Alice" :=
  ⟨((Assignee_key_collisions Example.issueNobody Example.issueNobody).2.1.mpr
      (Or.inl (by decide))).trans
    ((Assignee_key_collisions Example.issueNamedUnassigned Example.issueNobody).2.1.mpr
      (Or.inr (by decide))).symm,
   ((Assignee_key_collisions Example.issueAlice Example.issueAlice).2.2
      (by decide) (by decide) (by decide) (by decide)).1⟩

/-- C10: the link of an issue is `https://<server>/issues/<key>`, so for one client two
issues have the same link exactly when they have the same key. -/
theorem LinkForIssue_injective_in_key (c : jira.Client) (a b : jira.Issue) :
    c.LinkForIssue a = str "https://" ++ c.server ++ str "/issues/" ++ a.Key ∧
    (c.LinkForIssue a = c.LinkForIssue b ↔ a.Key = b.Key) := by
  refine ⟨rfl, ?_⟩
  unfold jira.Client.LinkForIssue
  constructor
  · intro h
    exact List.append_cancel_left h
  · intro h
    rw [h]

/-! ## Results of `Client.FindIssues` -/

/-- The request of `FindIssues`, field by field, in terms of what `url.Parse` made of the URL. -/
theorem buildRequest_eq (c : jira.Client) (Parse : GoString → Except Error url.URL)
    (ctx : Context) (jql : GoString) :
    c.buildRequest Parse ctx jql =
      match Parse (str "https://" ++ c.server ++ str "/rest/api/2/" ++ str "search") with
      | .error err => .error err
      | .ok u => .ok
          ⟨http.MethodGet,
            ⟨u.Scheme, u.Host, u.Path,
              url.Values.Encode (url.Values.Set (url.Values.Set [] (str "jql") jql)
                (str "fields") (str "key,summary,status,assignee")),
              u.Fragment⟩,
            [(str "Authorization", [str "Basic " ++ http.basicAuth c.username c.password])],
            none,
            Context.WithTimeout Context.Background (10 * Second)⟩ := by
  unfold jira.Client.buildRequest http.NewRequestWithContext
  cases Parse (str "https://" ++ c.server ++ str "/rest/api/2/" ++ str "search") <;> rfl

/-- The context of the request of `FindIssues` is not done when the request is sent. -/
theorem buildRequest_ctx_not_done (c : jira.Client) (Parse : GoString → Except Error url.URL)
    (ctx : Context) (jql : GoString) (req : http.Request)
    (hreq : c.buildRequest Parse ctx jql = .ok req) : req.ctx.Err = none := by
  rw [buildRequest_eq] at hreq
  split at hreq
  · simp at hreq
  · simp only [Except.ok.injEq] at hreq
    subst hreq
    show (Context.WithTimeout Context.Background (10 * Second)).Err = none
    decide

/-- What `FindIssues` returns when the request was built and the transport answered with a
readable body: decided by the status code and then by the decoder. -/
theorem FindIssues_of_response (c : jira.Client) (w : jira.World) (ctx : Context)
    (jql : GoString) (req : http.Request) (resp : http.Response)
    (hreq : c.buildRequest w.Parse ctx jql = .ok req)
    (hresp : w.RoundTrip req = .ok resp) (hbody : resp.Body.err = none) :
    (c.FindIssues w ctx jql).2 =
      if resp.StatusCode ≠ http.StatusOK then
        (none, some (Error.unexpectedStatus (str "JIRA") resp.StatusCode))
      else
        match w.Unmarshal resp.Body.data with
        | .error err => (none, some err)
        | .ok searchResp => (some searchResp, none) := by
  have hctx : req.ctx.Err = none := buildRequest_ctx_not_done c w.Parse ctx jql req hreq
  unfold jira.Client.FindIssues
  simp only [hreq, http.Do, hctx, hresp, hbody]
  split
  · rfl
  · split <;> rfl

/-- C2: on every path exactly one of the result and the error of `FindIssues` is non-nil;
when the request cannot be built the call returns nil and that error; and once the request is
built, the call fails (nil result, non-nil error) whenever the transport fails, the body of
the response cannot be read, the status is outside 200 to 299, or the body is not accepted by
the decoder. -/
theorem FindIssues_fails_with_nil_result (c : jira.Client) (w : jira.World) (ctx : Context)
    (jql : GoString) :
    (((c.FindIssues w ctx jql).2.1 = none ∧ (c.FindIssues w ctx jql).2.2 ≠ none) ∨
      ((c.FindIssues w ctx jql).2.1 ≠ none ∧ (c.FindIssues w ctx jql).2.2 = none)) ∧
    (∀ e, c.buildRequest w.Parse ctx jql = .error e →
      (c.FindIssues w ctx jql).2 = (none, some e)) ∧
    (∀ req, c.buildRequest w.Parse ctx jql = .ok req →
      ((∃ e, w.RoundTrip req = .error e) ∨
        (∃ resp, w.RoundTrip req = .ok resp ∧
          (resp.Body.err ≠ none ∨
            ¬ (200 ≤ resp.StatusCode ∧ resp.StatusCode ≤ 299) ∨
            ∃ e, w.Unmarshal resp.Body.data = .error e))) →
      (c.FindIssues w ctx jql).2.1 = none ∧ (c.FindIssues w ctx jql).2.2 ≠ none) := by
  refine ⟨?_, ?_, ?_⟩
  · unfold jira.Client.FindIssues
    split
    · simp
    · split
      · simp
      · split
        · simp
        · dsimp only
          split
          · simp
          · split <;> simp
  · intro e hreq
    unfold jira.Client.FindIssues
    simp [hreq]
  · intro req hreq hfail
    have hctx : req.ctx.Err = none := buildRequest_ctx_not_done c w.Parse ctx jql req hreq
    rcases hfail with ⟨e, he⟩ | ⟨resp, hresp, hbad⟩
    · unfold jira.Client.FindIssues
      simp [hreq, http.Do, hctx, he]
    · cases hb : resp.Body.err with
      | some e =>
        unfold jira.Client.FindIssues
        simp [hreq, http.Do, hctx, hresp, hb]
      | none =>
        rw [FindIssues_of_response c w ctx jql req resp hreq hresp hb]
        rcases hbad with hread | hstatus | ⟨e, he⟩
        · exact absurd hb hread
        · have : resp.StatusCode ≠ http.StatusOK := by
            intro h
            apply hstatus
            rw [h]
            decide
          simp [this]
        · split
          · simp
          · simp [he]

/-- An unreachable tracker, a tracker answering 404, a tracker answering 200 with a body whose
read fails, and a tracker answering 200 with a body the decoder rejects all make `FindIssues`
fail with a nil result. -/
theorem FindIssues_fails_with_nil_result_witness :
    ((Example.jiraClient.FindIssues Example.jiraUnreachable Context.Background (str "a = b")).2.1
        = none ∧
      (Example.jiraClient.FindIssues Example.jiraUnreachable Context.Background (str "a = b")).2.2
        ≠ none) ∧
    ((Example.jiraClient.FindIssues (Example.jiraAnswering 404) Context.Background
        (str "a = b")).2.1 = none ∧
      (Example.jiraClient.FindIssues (Example.jiraAnswering 404) Context.Background
        (str "a = b")).2.2 ≠ none) ∧
    ((Example.jiraClient.FindIssues Example.jiraUnreadableBody Context.Background
        (str "a = b")).2.1 = none ∧
      (Example.jiraClient.FindIssues Example.jiraUnreadableBody Context.Background
        (str "a = b")).2.2 ≠ none) ∧
    ((Example.jiraClient.FindIssues Example.jiraMalformedBody Context.Background
        (str "a = b")).2.1 = none ∧
      (Example.jiraClient.FindIssues Example.jiraMalformedBody Context.Background
        (str "a = b")).2.2 ≠ none) :=
  ⟨(FindIssues_fails_with_nil_result Example.jiraClient Example.jiraUnreachable
      Context.Background (str "a = b")).2.2 _ rfl (Or.inl ⟨_, rfl⟩),
   (FindIssues_fails_with_nil_result Example.jiraClient (Example.jiraAnswering 404)
      Context.Background (str "a = b")).2.2 _ rfl
      (Or.inr ⟨_, rfl, Or.inr (Or.inl (by decide))⟩),
   (FindIssues_fails_with_nil_result Example.jiraClient Example.jiraUnreadableBody
      Context.Background (str "a = b")).2.2 _ rfl
      (Or.inr ⟨_, rfl, Or.inl (by decide)⟩),
   (FindIssues_fails_with_nil_result Example.jiraClient Example.jiraMalformedBody
      Context.Background (str "a = b")).2.2 _ rfl
      (Or.inr ⟨_, rfl, Or.inr (Or.inr ⟨_, rfl⟩)⟩)⟩

/-- C3, as stated, fails: a tracker answering 201 with a body the decoder accepts is a
200-class response with a well-formed body, and `FindIssues` returns no result and the
unexpected-status error. -/
theorem FindIssues_rejects_status_201 :
    ¬ (∀ (c : jira.Client) (w : jira.World) (ctx : Context) (jql : GoString)
        (req : http.Request) (resp : http.Response) (searchResp : jira.SearchResponse),
        c.buildRequest w.Parse ctx jql = .ok req →
        w.RoundTrip req = .ok resp → resp.Body.err = none →
        (200 ≤ resp.StatusCode ∧ resp.StatusCode ≤ 299) →
        w.Unmarshal resp.Body.data = .ok searchResp →
        (c.FindIssues w ctx jql).2 = (some searchResp, none)) := by
  intro h
  have h201 := h Example.jiraClient (Example.jiraAnswering 201) Context.Background
    (str "a = b") _ ⟨201, ⟨str "\x7b\x7d", none⟩⟩ Example.searchResponse rfl rfl rfl (by decide) rfl
  have hcode : (Example.jiraClient.FindIssues (Example.jiraAnswering 201) Context.Background
      (str "a = b")).2 = (none, some (Error.unexpectedStatus (str "JIRA") 201)) := by decide
  rw [hcode] at h201
  exact absurd h201 (by decide)

/-- C3, amended: for every tracker response whose status code is exactly 200, whose body
is readable and is decoded into a search response, `FindIssues` returns that search response
and no error. -/
theorem FindIssues_ok_on_status_200 (c : jira.Client) (w : jira.World) (ctx : Context)
    (jql : GoString) (req : http.Request) (resp : http.Response)
    (searchResp : jira.SearchResponse)
    (hreq : c.buildRequest w.Parse ctx jql = .ok req)
    (hresp : w.RoundTrip req = .ok resp) (hbody : resp.Body.err = none)
    (hstatus : resp.StatusCode = 200)
    (hjson : w.Unmarshal resp.Body.data = .ok searchResp) :
    (c.FindIssues w ctx jql).2 = (some searchResp, none) := by
  rw [FindIssues_of_response c w ctx jql req resp hreq hresp hbody]
  have : resp.StatusCode = http.StatusOK := hstatus
  simp [this, hjson]

/-- A tracker answering 200 gives the decoded search response. -/
theorem FindIssues_ok_on_status_200_witness :
    (Example.jiraClient.FindIssues (Example.jiraAnswering 200) Context.Background
      (str "a = b")).2 = (some Example.searchResponse, none) :=
  FindIssues_ok_on_status_200 Example.jiraClient (Example.jiraAnswering 200) Context.Background
    (str "a = b") _ ⟨200, ⟨str "\x7b\x7d", none⟩⟩ Example.searchResponse rfl rfl rfl rfl rfl

/-! ## Results of `Client.PostMessage` -/

/-- The context of the request of `PostMessage` is not done when the request is sent. -/
theorem slack_buildRequest_ctx_not_done (c : slack.Client) (w : slack.World) (ctx : Context)
    (msg : slack.Message) (req : http.Request)
    (hreq : c.buildRequest w ctx msg = .ok req) : req.ctx.Err = none := by
  unfold slack.Client.buildRequest http.NewRequestWithContext at hreq
  cases hm : w.Marshal msg with
  | error e => simp [hm] at hreq
  | ok encodedMsg =>
    cases hp : w.Parse c.webhookURL with
    | error e => simp [hm, hp] at hreq
    | ok u =>
      simp only [hm, hp, Except.ok.injEq] at hreq
      subst hreq
      show (Context.WithTimeout Context.Background (10 * Second)).Err = none
      decide

/-- What `PostMessage` does once the request is built and the transport has answered:
decided by the status code, and for a status other than 200 by whether the body can be
read. -/
theorem PostMessage_of_response (c : slack.Client) (w : slack.World) (ctx : Context)
    (msg : slack.Message) (req : http.Request) (resp : http.Response)
    (hreq : c.buildRequest w ctx msg = .ok req) (hresp : w.RoundTrip req = .ok resp) :
    (c.PostMessage w ctx msg).2 =
      if resp.StatusCode ≠ http.StatusOK then
        match resp.Body.err with
        | some err => slack.Outcome.panicked err
        | none =>
          slack.Outcome.returned (some (Error.unexpectedStatus (str "Slack") resp.StatusCode))
      else
        slack.Outcome.returned none := by
  have hctx : req.ctx.Err = none := slack_buildRequest_ctx_not_done c w ctx msg req hreq
  unfold slack.Client.PostMessage
  simp only [hreq, http.Do, hctx, hresp]
  split
  · split <;> rfl
  · rfl

/-- C4, as stated, fails: a chat system answering 204 with an empty readable body gives a
200-class response, and `PostMessage` returns the unexpected-status error. -/
theorem PostMessage_rejects_status_204 :
    ¬ (∀ (c : slack.Client) (w : slack.World) (ctx : Context) (msg : slack.Message)
        (req : http.Request) (resp : http.Response),
        c.buildRequest w ctx msg = .ok req → w.RoundTrip req = .ok resp →
        (200 ≤ resp.StatusCode ∧ resp.StatusCode ≤ 299) →
        (c.PostMessage w ctx msg).2 = slack.Outcome.returned none) := by
  intro h
  have h204 := h Example.slackClient (Example.slackAnswering 204 ⟨[], none⟩) Context.Background
    Example.message _ ⟨204, ⟨[], none⟩⟩ rfl rfl (by decide)
  have hcode : (Example.slackClient.PostMessage (Example.slackAnswering 204 ⟨[], none⟩)
      Context.Background Example.message).2
      = slack.Outcome.returned (some (Error.unexpectedStatus (str "Slack") 204)) := by decide
  rw [hcode] at h204
  exact absurd h204 (by decide)

/-- C4, amended: for every message and every chat-system response whose status code is
exactly 200, `PostMessage` returns no error, whatever the response body contains and whether
or not it can be read. -/
theorem PostMessage_ok_on_status_200 (c : slack.Client) (w : slack.World) (ctx : Context)
    (msg : slack.Message) (req : http.Request) (resp : http.Response)
    (hreq : c.buildRequest w ctx msg = .ok req) (hresp : w.RoundTrip req = .ok resp)
    (hstatus : resp.StatusCode = 200) :
    (c.PostMessage w ctx msg).2 = slack.Outcome.returned none := by
  rw [PostMessage_of_response c w ctx msg req resp hreq hresp]
  have : resp.StatusCode = http.StatusOK := hstatus
  simp [this]

/-- A chat system answering 200 with an unreadable body: no error is returned. -/
theorem PostMessage_ok_on_status_200_witness :
    (Example.slackClient.PostMessage
      (Example.slackAnswering 200 ⟨str "ok", some (Error.lib (str "unexpected EOF"))⟩)
      Context.Background Example.message).2 = slack.Outcome.returned none :=
  PostMessage_ok_on_status_200 Example.slackClient
    (Example.slackAnswering 200 ⟨str "ok", some (Error.lib (str "unexpected EOF"))⟩)
    Context.Background Example.message _
    ⟨200, ⟨str "ok", some (Error.lib (str "unexpected EOF"))⟩⟩ rfl rfl rfl

/-- C7 at its failing input: the chat system answers 500 and the body cannot be read;
`PostMessage` has sent the request and then panics with the read error instead of returning
an error. -/
theorem PostMessage_panics_on_unreadable_error_body :
    (Example.slackClient.PostMessage
      (Example.slackAnswering 500 ⟨[], some (Error.lib (str "unexpected EOF"))⟩)
      Context.Background Example.message).2
      = slack.Outcome.panicked (Error.lib (str "unexpected EOF")) := by
  decide

/-! ## The caller's context -/

/-- C8 at its failing input: with a caller context that is already canceled, `FindIssues`
still puts its request on the wire and returns the search response without error, and
`PostMessage` still puts its request on the wire and returns nil; the context of both requests
is derived from the background context, not from the caller's. -/
theorem canceled_context_still_sends :
    Example.canceledCtx.Err = some Error.canceled ∧
    ((Example.jiraClient.FindIssues (Example.jiraAnswering 200) Example.canceledCtx
        (str "a = b")).1.sent.length = 1 ∧
      (Example.jiraClient.FindIssues (Example.jiraAnswering 200) Example.canceledCtx
        (str "a = b")).2 = (some Example.searchResponse, none)) ∧
    ((Example.slackClient.PostMessage (Example.slackAnswering 200 ⟨[], none⟩)
        Example.canceledCtx Example.message).1.sent.length = 1 ∧
      (Example.slackClient.PostMessage (Example.slackAnswering 200 ⟨[], none⟩)
        Example.canceledCtx Example.message).2 = slack.Outcome.returned none) ∧
    (∀ req ∈ (Example.jiraClient.FindIssues (Example.jiraAnswering 200) Example.canceledCtx
        (str "a = b")).1.sent ++
      (Example.slackClient.PostMessage (Example.slackAnswering 200 ⟨[], none⟩)
        Example.canceledCtx Example.message).1.sent,
      req.ctx = Context.WithTimeout Context.Background (10 * Second)) := by
  decide

/-! ## The entry point -/

/-- C5 at its failing input: the rule-set file is readable, `yaml.Unmarshal` returns an
error, the three environment variables are set; `main` invokes `Run` once, on the
configuration the failed decoding left behind, and ends without a fatal exit. -/
theorem main_runs_after_yaml_error :
    (Example.malformedConfigWorld.Unmarshal (str "rules: [")
        Example.malformedConfigWorld.zeroConfig).2 ≠ none ∧
    (nudge.main Example.malformedConfigWorld).runs.length = 1 ∧
    (nudge.main Example.malformedConfigWorld).fatal = none := by
  decide

/-! ## The query string: escaping, encoding and parsing back -/

namespace url

set_option maxRecDepth 100000 in
/-- Every entry of `upperhex` is a hex digit, `unhex` gives its index back, and it is none of
`&`, `=`, `;`. -/
theorem hexdigit_facts : ∀ n : Fin 16,
    ishex (upperhex.getD n.val 0) = true ∧ unhex (upperhex.getD n.val 0) = n.val ∧
    (upperhex.getD n.val 0).val ≠ 38 ∧ (upperhex.getD n.val 0).val ≠ 61 ∧
    (upperhex.getD n.val 0).val ≠ 59 := by
  decide

set_option maxRecDepth 100000 in
/-- A byte that is not escaped is none of `%`, `+`, `&`, `=`, `;`. -/
theorem kept_facts : ∀ c : Byte, shouldEscape c = false →
    c.val ≠ 37 ∧ c.val ≠ 43 ∧ c.val ≠ 38 ∧ c.val ≠ 61 ∧ c.val ≠ 59 := by
  decide

/-- The encoded query of `FindIssues`: `fields` sorts before `jql`. -/
theorem encode_eq (jql : GoString) :
    Values.Encode (Values.Set (Values.Set [] (str "jql") jql) (str "fields")
      (str "key,summary,status,assignee")) =
    str "fields=key%2Csummary%2Cstatus%2Cassignee&jql=" ++ QueryEscape jql := by
  rfl

/-- The two hex digits written for a byte are hex digits and decode to the byte. -/
theorem escape_byte_roundtrip (c : Byte) :
    ishex (upperhex.getD (c.val / 16) 0) = true ∧ ishex (upperhex.getD (c.val % 16) 0) = true ∧
    (Fin.ofNat (unhex (upperhex.getD (c.val / 16) 0) * 16
      + unhex (upperhex.getD (c.val % 16) 0)) : Byte) = c := by
  have hhi : c.val / 16 < 16 := by omega
  have hlo : c.val % 16 < 16 := by omega
  have h1 := hexdigit_facts ⟨c.val / 16, hhi⟩
  have h2 := hexdigit_facts ⟨c.val % 16, hlo⟩
  refine ⟨h1.1, h2.1, ?_⟩
  rw [h1.2.1, h2.2.1]
  apply Fin.ext
  show (c.val / 16 * 16 + c.val % 16) % 256 = c.val
  omega

/-- Unescaping a `+`. -/
theorem QueryUnescape_plus (s t : GoString) (h : QueryUnescape s = .ok t) :
    QueryUnescape ((43 : Byte) :: s) = .ok ((32 : Byte) :: t) := by
  have h37 : ((43 : Byte).val = 37) = False := by decide
  have h43 : ((43 : Byte).val = 43) = True := by decide
  rw [QueryUnescape.eq_def]
  simp only [h37, h43, if_false, if_true, h]

/-- Unescaping `%XX`. -/
theorem QueryUnescape_percent (hi lo : Byte) (s t : GoString) (hhi : ishex hi = true)
    (hlo : ishex lo = true) (h : QueryUnescape s = .ok t) :
    QueryUnescape ((37 : Byte) :: hi :: lo :: s) =
      .ok ((Fin.ofNat (unhex hi * 16 + unhex lo) : Byte) :: t) := by
  rw [QueryUnescape.eq_def]
  simp only [hhi, hlo, h]
  rfl

/-- Unescaping a byte that is neither `%` nor `+`. -/
theorem QueryUnescape_kept (c : Byte) (s t : GoString) (h37 : c.val ≠ 37) (h43 : c.val ≠ 43)
    (h : QueryUnescape s = .ok t) : QueryUnescape (c :: s) = .ok (c :: t) := by
  rw [QueryUnescape.eq_def]
  simp only [h37, h43, if_false, h]

/-- Unescaping an escaped text gives the text back. -/
theorem QueryUnescape_QueryEscape (s : GoString) : QueryUnescape (QueryEscape s) = .ok s := by
  induction s with
  | nil => rfl
  | cons c s ih =>
    rw [QueryEscape]
    by_cases h32 : c.val = 32
    · have hc : c = 32 := Fin.ext h32
      rw [if_pos h32, hc]
      exact QueryUnescape_plus _ _ ih
    · rw [if_neg h32]
      by_cases hesc : shouldEscape c = true
      · obtain ⟨h1, h2, h3⟩ := escape_byte_roundtrip c
        rw [if_pos hesc, QueryUnescape_percent _ _ _ _ h1 h2 ih, h3]
      · have hkeep : shouldEscape c = false := by simpa using hesc
        obtain ⟨k1, k2, -⟩ := kept_facts c hkeep
        rw [if_neg hesc]
        exact QueryUnescape_kept c _ _ k1 k2 ih

/-- An escaped text holds none of `&`, `=`, `;`. -/
theorem QueryEscape_no_separator (s : GoString) :
    ∀ b ∈ QueryEscape s, b.val ≠ 38 ∧ b.val ≠ 61 ∧ b.val ≠ 59 := by
  induction s with
  | nil => intro b hb; simp [QueryEscape] at hb
  | cons c s ih =>
    intro b hb
    rw [QueryEscape] at hb
    by_cases h32 : c.val = 32
    · rw [if_pos h32, List.mem_cons] at hb
      rcases hb with hb | hb
      · subst hb; decide
      · exact ih b hb
    · rw [if_neg h32] at hb
      by_cases hesc : shouldEscape c = true
      · rw [if_pos hesc, List.mem_cons, List.mem_cons, List.mem_cons] at hb
        have hhi : c.val / 16 < 16 := by omega
        have hlo : c.val % 16 < 16 := by omega
        have h1 := hexdigit_facts ⟨c.val / 16, hhi⟩
        have h2 := hexdigit_facts ⟨c.val % 16, hlo⟩
        rcases hb with hb | hb | hb | hb
        · subst hb; decide
        · subst hb; exact h1.2.2
        · subst hb; exact h2.2.2
        · exact ih b hb
      · have hkeep : shouldEscape c = false := by simpa using hesc
        rw [if_neg hesc, List.mem_cons] at hb
        obtain ⟨-, -, k3, k4, k5⟩ := kept_facts c hkeep
        rcases hb with hb | hb
        · subst hb; exact ⟨k3, k4, k5⟩
        · exact ih b hb

/-- A non-empty text without `&` is one setting. -/
theorem settings_no_amp (s : GoString) (hne : s ≠ []) (h : ∀ b ∈ s, b.val ≠ 38) :
    settings s = [s] := by
  induction s with
  | nil => exact absurd rfl hne
  | cons c s ih =>
    have hc : c.val ≠ 38 := h c (List.mem_cons_self _ _)
    rw [settings, if_neg hc]
    cases s with
    | nil => rfl
    | cons d s =>
      rw [ih (by simp) (fun b hb => h b (List.mem_cons_of_mem _ hb))]

/-- The first setting ends at the first `&`. -/
theorem settings_append_amp (a b : GoString) (h : ∀ x ∈ a, x.val ≠ 38) :
    settings (a ++ (38 : Byte) :: b) = a :: settings b := by
  induction a with
  | nil => rfl
  | cons c a ih =>
    have hc : c.val ≠ 38 := h c (List.mem_cons_self _ _)
    rw [List.cons_append, settings, if_neg hc, ih (fun x hx => h x (List.mem_cons_of_mem _ hx))]

set_option maxRecDepth 100000 in
/-- Parsing the encoded query of `FindIssues` gives back its two parameters and no error. -/
theorem ParseQuery_of_encoded (jql : GoString) :
    ParseQuery (str "fields=key%2Csummary%2Cstatus%2Cassignee&jql=" ++ QueryEscape jql) =
      ([(str "fields", [str "key,summary,status,assignee"]), (str "jql", [jql])], none) := by
  have hsplit : str "fields=key%2Csummary%2Cstatus%2Cassignee&jql=" ++ QueryEscape jql =
      str "fields=key%2Csummary%2Cstatus%2Cassignee"
        ++ (38 : Byte) :: (str "jql=" ++ QueryEscape jql) := rfl
  have hJ : ∀ b ∈ str "jql=", b.val ≠ 38 ∧ b.val ≠ 59 := by decide
  have hB : ∀ b ∈ str "jql=" ++ QueryEscape jql, b.val ≠ 38 ∧ b.val ≠ 59 := by
    intro b hb
    rw [List.mem_append] at hb
    rcases hb with hb | hb
    · exact hJ b hb
    · exact ⟨(QueryEscape_no_separator jql b hb).1, (QueryEscape_no_separator jql b hb).2.2⟩
  have h59 : (59 : Byte) ∉ str "jql=" ++ QueryEscape jql := fun hm => (hB 59 hm).2 rfl
  have hA : ∀ x ∈ str "fields=key%2Csummary%2Cstatus%2Cassignee", x.val ≠ 38 := by
    decide
  unfold ParseQuery
  rw [hsplit, settings_append_amp _ _ hA,
    settings_no_amp _ (by simp [str]) (fun b hb => (hB b hb).1)]
  rw [parseSettings, if_neg (by decide),
    if_neg (by decide)]
  have hf : QueryUnescape (strings.Cut 61 (str "fields=key%2Csummary%2Cstatus%2Cassignee")).1
      = .ok (str "fields") := rfl
  have hv : QueryUnescape
      ((strings.Cut 61 (str "fields=key%2Csummary%2Cstatus%2Cassignee")).2.getD [])
      = .ok (str "key,summary,status,assignee") := rfl
  rw [hf, hv]
  dsimp only
  rw [parseSettings, if_neg h59, if_neg (by simp [str])]
  have hcut : strings.Cut 61 (str "jql=" ++ QueryEscape jql)
      = (str "jql", some (QueryEscape jql)) := rfl
  rw [hcut]
  dsimp only [Option.getD]
  have hj : QueryUnescape (str "jql") = .ok (str "jql") := rfl
  rw [hj, QueryUnescape_QueryEscape]
  rfl

end url

/-! ## The base64 standard encoding can be decoded -/

namespace base64

set_option maxRecDepth 100000 in
/-- The character of a six-bit value decodes to that value and is not the padding `=`. -/
theorem dec_enc : ∀ n : Fin 64, dec (enc n.val) = some n.val ∧ (enc n.val).val ≠ 61 := by
  decide

/-- Decoding the character of a six-bit value. -/
theorem dec_enc_lt (n : Nat) (h : n < 64) : dec (enc n) = some n := (dec_enc ⟨n, h⟩).1

/-- No character of the alphabet is the padding. -/
theorem enc_ne_pad (n : Nat) (h : n < 64) : (enc n).val ≠ 61 := (dec_enc ⟨n, h⟩).2

/-- Decoding a final group of one byte. -/
theorem DecodeString_one (p q : Byte) (x y : Nat) (hp : dec p = some x) (hq : dec q = some y) :
    DecodeString [p, q, 61, 61] = some [Fin.ofNat (x * 4 + y / 16)] := by
  rw [DecodeString.eq_def]
  simp only [hp, hq]
  rw [if_pos ⟨rfl, rfl, trivial⟩]

/-- Decoding a final group of two bytes. -/
theorem DecodeString_two (p q r : Byte) (x y z : Nat) (hp : dec p = some x) (hq : dec q = some y)
    (hr : dec r = some z) (hr61 : r.val ≠ 61) :
    DecodeString [p, q, r, 61] =
      some [Fin.ofNat (x * 4 + y / 16), Fin.ofNat (y % 16 * 16 + z / 4)] := by
  rw [DecodeString.eq_def]
  simp only [hp, hq, hr]
  rw [if_neg (fun h => hr61 h.1), if_pos ⟨rfl, trivial⟩]

/-- Decoding a full group of three bytes. -/
theorem DecodeString_three (p q r t : Byte) (rest out : GoString) (x y z u : Nat)
    (hp : dec p = some x) (hq : dec q = some y) (hr : dec r = some z) (ht : dec t = some u)
    (hr61 : r.val ≠ 61) (ht61 : t.val ≠ 61) (hrest : DecodeString rest = some out) :
    DecodeString (p :: q :: r :: t :: rest) =
      some (Fin.ofNat (x * 4 + y / 16) :: Fin.ofNat (y % 16 * 16 + z / 4)
        :: Fin.ofNat (z % 4 * 64 + u) :: out) := by
  rw [DecodeString.eq_def]
  simp only [hp, hq, hr, ht, hrest]
  rw [if_neg (fun h => hr61 h.1), if_neg (fun h => ht61 h.1)]

/-- Decoding an encoded text gives the text back. -/
theorem DecodeString_EncodeToString : ∀ s : GoString, DecodeString (EncodeToString s) = some s
  | [] => rfl
  | [a] => by
    have h1 : a.val / 4 < 64 := by omega
    have h2 : a.val % 4 * 16 < 64 := by omega
    have e : (Fin.ofNat (a.val / 4 * 4 + a.val % 4 * 16 / 16) : Byte) = a := by
      apply Fin.ext
      show (a.val / 4 * 4 + a.val % 4 * 16 / 16) % 256 = a.val
      omega
    rw [EncodeToString, DecodeString_one _ _ _ _ (dec_enc_lt _ h1) (dec_enc_lt _ h2), e]
  | [a, b] => by
    have h1 : a.val / 4 < 64 := by omega
    have h2 : a.val % 4 * 16 + b.val / 16 < 64 := by omega
    have h3 : b.val % 16 * 4 < 64 := by omega
    have e1 : (Fin.ofNat (a.val / 4 * 4 + (a.val % 4 * 16 + b.val / 16) / 16) : Byte) = a := by
      apply Fin.ext
      show (a.val / 4 * 4 + (a.val % 4 * 16 + b.val / 16) / 16) % 256 = a.val
      omega
    have e2 : (Fin.ofNat ((a.val % 4 * 16 + b.val / 16) % 16 * 16 + b.val % 16 * 4 / 4) : Byte)
        = b := by
      apply Fin.ext
      show ((a.val % 4 * 16 + b.val / 16) % 16 * 16 + b.val % 16 * 4 / 4) % 256 = b.val
      omega
    rw [EncodeToString, DecodeString_two _ _ _ _ _ _ (dec_enc_lt _ h1) (dec_enc_lt _ h2)
      (dec_enc_lt _ h3) (enc_ne_pad _ h3), e1, e2]
  | a :: b :: c :: rest => by
    have h1 : a.val / 4 < 64 := by omega
    have h2 : a.val % 4 * 16 + b.val / 16 < 64 := by omega
    have h3 : b.val % 16 * 4 + c.val / 64 < 64 := by omega
    have h4 : c.val % 64 < 64 := by omega
    have e1 : (Fin.ofNat (a.val / 4 * 4 + (a.val % 4 * 16 + b.val / 16) / 16) : Byte) = a := by
      apply Fin.ext
      show (a.val / 4 * 4 + (a.val % 4 * 16 + b.val / 16) / 16) % 256 = a.val
      omega
    have e2 : (Fin.ofNat ((a.val % 4 * 16 + b.val / 16) % 16 * 16
        + (b.val % 16 * 4 + c.val / 64) / 4) : Byte) = b := by
      apply Fin.ext
      show ((a.val % 4 * 16 + b.val / 16) % 16 * 16 + (b.val % 16 * 4 + c.val / 64) / 4) % 256
        = b.val
      omega
    have e3 : (Fin.ofNat ((b.val % 16 * 4 + c.val / 64) % 4 * 64 + c.val % 64) : Byte) = c := by
      apply Fin.ext
      show ((b.val % 16 * 4 + c.val / 64) % 4 * 64 + c.val % 64) % 256 = c.val
      omega
    rw [EncodeToString, DecodeString_three _ _ _ _ _ _ _ _ _ _ (dec_enc_lt _ h1) (dec_enc_lt _ h2)
      (dec_enc_lt _ h3) (dec_enc_lt _ h4) (enc_ne_pad _ h3) (enc_ne_pad _ h4)
      (DecodeString_EncodeToString rest), e1, e2, e3]

end base64

/-! ## The request of `Client.FindIssues` -/

/-- Cutting `before:after` at the first colon gives the two parts back when `before` holds no
colon. -/
theorem Cut_colon (before after : GoString) (h : (58 : Byte) ∉ before) :
    strings.Cut 58 (before ++ str ":" ++ after) = (before, some after) := by
  induction before with
  | nil => rfl
  | cons c s ih =>
    have hc : c ≠ 58 := fun e => h (e ▸ List.mem_cons_self _ _)
    have hs : (58 : Byte) ∉ s := fun hm => h (List.mem_cons_of_mem _ hm)
    show strings.Cut 58 (c :: (s ++ str ":" ++ after)) = _
    rw [strings.Cut, if_neg hc, ih hs]

/-- Once the request is built, `FindIssues` puts exactly that request on the wire, whatever
the exchange gives. -/
theorem FindIssues_sent (c : jira.Client) (w : jira.World) (ctx : Context) (jql : GoString)
    (req : http.Request) (hreq : c.buildRequest w.Parse ctx jql = .ok req) :
    (c.FindIssues w ctx jql).1.sent = [req] := by
  have hctx : req.ctx.Err = none := buildRequest_ctx_not_done c w.Parse ctx jql req hreq
  unfold jira.Client.FindIssues
  simp only [hreq, http.Do, hctx]
  cases w.RoundTrip req with
  | error e => rfl
  | ok resp =>
    dsimp only
    cases resp.Body.err with
    | some e => rfl
    | none =>
      dsimp only
      split
      · rfl
      · split <;> rfl

/-- C6: whenever `url.Parse` accepts `https://<server>/rest/api/2/search`, `FindIssues`
builds and sends one request: a GET to that parsed URL in which only the query is replaced;
the query is `fields=key%2Csummary%2Cstatus%2Cassignee&jql=<escaped jql>`, it parses back to
exactly the two parameters `fields = key,summary,status,assignee` and `jql = <the given
query>`, and unescaping the escaped query gives the given query unchanged; the only header is
`Authorization: Basic <base64 of username:password>`, whose decoding is the client's
`username:password` (and cutting it at the first colon gives the username and the password
back when the username holds no colon); the request has no body. -/
theorem FindIssues_request (c : jira.Client) (w : jira.World) (ctx : Context) (jql : GoString)
    (u : url.URL)
    (hurl : w.Parse (str "https://" ++ c.server ++ str "/rest/api/2/search") = .ok u) :
    ∃ req : http.Request,
      c.buildRequest w.Parse ctx jql = .ok req ∧
      (c.FindIssues w ctx jql).1.sent = [req] ∧
      req.Method = str "GET" ∧
      req.URL = ⟨u.Scheme, u.Host, u.Path, req.URL.RawQuery, u.Fragment⟩ ∧
      req.URL.RawQuery =
        str "fields=key%2Csummary%2Cstatus%2Cassignee&jql=" ++ url.QueryEscape jql ∧
      url.QueryUnescape (url.QueryEscape jql) = .ok jql ∧
      url.ParseQuery req.URL.RawQuery =
        ([(str "fields", [str "key,summary,status,assignee"]), (str "jql", [jql])], none) ∧
      req.Header = [(str "Authorization",
        [str "Basic " ++ base64.EncodeToString (c.username ++ str ":" ++ c.password)])] ∧
      base64.DecodeString (base64.EncodeToString (c.username ++ str ":" ++ c.password)) =
        some (c.username ++ str ":" ++ c.password) ∧
      ((58 : Byte) ∉ c.username →
        strings.Cut 58 (c.username ++ str ":" ++ c.password) = (c.username, some c.password)) ∧
      req.Body = none := by
  have hurl2 : w.Parse (str "https://" ++ c.server ++ str "/rest/api/2/" ++ str "search")
      = .ok u := by
    have e : str "https://" ++ c.server ++ str "/rest/api/2/" ++ str "search"
        = str "https://" ++ c.server ++ str "/rest/api/2/search" := by
      rw [List.append_assoc (str "https://" ++ c.server)]
      rfl
    rw [e]
    exact hurl
  have hreq := buildRequest_eq c w.Parse ctx jql
  rw [hurl2] at hreq
  refine ⟨_, hreq, FindIssues_sent c w ctx jql _ hreq, rfl, rfl, url.encode_eq jql,
    url.QueryUnescape_QueryEscape jql, ?_, rfl, base64.DecodeString_EncodeToString _,
    Cut_colon c.username c.password, rfl⟩
  show url.ParseQuery (url.Values.Encode _) = _
  rw [url.encode_eq jql]
  exact url.ParseQuery_of_encoded jql

/-- The request of the example client for the query `a = b`. -/
theorem FindIssues_request_witness :
    ∃ req : http.Request,
      (Example.jiraClient.FindIssues (Example.jiraAnswering 200) Context.Background
        (str "a = b")).1.sent = [req] ∧
      req.URL.RawQuery = str "fields=key%2Csummary%2Cstatus%2Cassignee&jql=a+%3D+b" ∧
      req.Header = [(str "Authorization", [str "Basic Ym90OnMzY3JldA=="])] := by
  obtain ⟨req, -, hsent, -, -, hq, -, -, hh, -, -, -⟩ :=
    FindIssues_request Example.jiraClient (Example.jiraAnswering 200) Context.Background
      (str "a = b") _ rfl
  exact ⟨req, hsent, hq, hh⟩
